import Mathlib

/-!
Verification of the lead-valuation service (`/valuation/v1/price-m2`).

The pipeline embedded here follows the TypeScript source:
postal-code extraction by the regex `\b\d{5}\b`, a freshness cache keyed
by postal code, an external price-estimation provider with a free-text
parsing strategy (regex `(\d{3,6}(?:[.,]\d{1,3})?)`, dot-stripping and
comma-to-dot normalization, `Math.round`) and a strict structured-JSON
strategy, total-price and confidence computation, and persistence of the
result against a lead row.  JavaScript numbers are modelled as rationals,
nullable numbers as `Option ℚ`, JS exceptions as `Except Unit`, and the
JS truthiness tests the code performs (`if (price)`, `price && sqm`) as
explicit `≠ 0` tests on the `Option.getD 0` value.
-/

namespace LeadValuation

/-! ### Character helpers (JS regex classes) -/

/-- JS `\w`: ASCII letters, digits, underscore. -/
def isWordChar (c : Char) : Bool := c.isAlphanum || c = '_'

/-- A position is a word-break for `\b` next to a digit run when the
neighbouring character is absent (string boundary) or a non-word char. -/
def wordBreak : Option Char → Bool
  | none => true
  | some c => !isWordChar c

/-- JS whitespace for `trim` (the subset relevant here). -/
def isWS (c : Char) : Bool := c = ' ' || c = '\t' || c = '\n' || c = '\r'

/-- `String.prototype.trim` on the character list. -/
def trimChars (l : List Char) : List Char :=
  ((l.dropWhile isWS).reverse.dropWhile isWS).reverse

def trimStr (s : String) : String := String.mk (trimChars s.toList)

/-! ### The free-text number token regex `(\d{3,6}(?:[.,]\d{1,3})?)` -/

/-- Greedy digit run at the head of the list, capped at `n` characters. -/
def takeDigitsUpTo (n : ℕ) (l : List Char) : List Char :=
  (l.takeWhile Char.isDigit).take n

/-- Attempt the regex `\d{3,6}(?:[.,]\d{1,3})?` at the head of `l`
(greedy, as the JS engine matches it). -/
def numTokenAt (l : List Char) : Option (List Char) :=
  let ds := takeDigitsUpTo 6 l
  if ds.length < 3 then none
  else
    match l.drop ds.length with
    | sep :: rest =>
      if sep = '.' || sep = ',' then
        let fs := takeDigitsUpTo 3 rest
        if fs.length = 0 then some ds else some (ds ++ sep :: fs)
      else some ds
    | [] => some ds

/-- Leftmost match of the token regex: `text.match(...)` semantics. -/
def findNumToken : List Char → Option (List Char)
  | [] => none
  | c :: rest =>
    match numTokenAt (c :: rest) with
    | some t => some t
    | none => findNumToken rest

/-! ### Normalization and `Number(...)` / `Math.round` -/

/-- `match[1].replace(/\./g, "")`. -/
def removeDots (l : List Char) : List Char := l.filter (fun c => c ≠ '.')

/-- `.replace(",", ".")` — JS `replace` with a string pattern replaces
only the first occurrence. -/
def replaceFirstComma : List Char → List Char
  | [] => []
  | c :: r => if c = ',' then '.' :: r else c :: replaceFirstComma r

def digitsToNat (l : List Char) : ℕ :=
  l.foldl (fun n c => 10 * n + (c.toNat - '0'.toNat)) 0

/-- `Number(tok)` for a normalized token, which is always either a digit
run or a digit run, one `'.'`, and a fractional digit run; the value is
a finite nonnegative rational, so the source's `Number.isFinite` guard
never fires. -/
def ratOfNumToken (l : List Char) : ℚ :=
  match l.span (fun c => c ≠ '.') with
  | (intPart, []) => (digitsToNat intPart : ℚ)
  | (intPart, _ :: frac) =>
      (digitsToNat intPart : ℚ) + (digitsToNat frac : ℚ) / (10 ^ frac.length)

/-- The parsing tail of `fetchPriceM2WithOpenAI` (free-text variant):
trim, leftmost token match, dot-stripping, comma normalization,
`Number`, `Math.round`. -/
def parsePriceText (s : String) : Option ℤ :=
  let text := trimChars s.toList
  if text.isEmpty then none
  else
    match findNumToken text with
    | none => none
    | some tok => some (round (ratOfNumToken (replaceFirstComma (removeDots tok))))

/-- `fetchPriceM2WithOpenAI` (free-text variant, `part_000`): returns
`null` without calling when the API key is empty; otherwise the chat
call either throws (the `Except.error`, which the function does NOT
catch and therefore propagates) or yields the message content
(`content ?? ""`), which is parsed. -/
def fetchPriceM2WithOpenAI (apiKey : Bool) (call : Except Unit (Option String)) :
    Except Unit (Option ℤ) :=
  if !apiKey then .ok none
  else
    match call with
    | .error e => .error e
    | .ok content => .ok (parsePriceText (content.getD ""))

/-! ### The postal-code regex `\b\d{5}\b` (`CP_REGEX`) -/

/-- Attempt `\b\d{5}\b` at the head of `l`, where `prev` is the
character immediately before this position (`none` at the start of the
string).  `\b` holds next to a digit exactly when the neighbour is a
string boundary or a non-word character. -/
def matchFiveAt (prev : Option Char) (l : List Char) : Option (List Char) :=
  match l with
  | a :: b :: c :: d :: e :: rest =>
    if wordBreak prev && a.isDigit && b.isDigit && c.isDigit && d.isDigit && e.isDigit
        && wordBreak rest.head? then
      some [a, b, c, d, e]
    else none
  | _ => none

/-- Leftmost-match scan of `CP_REGEX`, threading the previous character. -/
def cpScan : Option Char → List Char → Option (List Char)
  | _, [] => none
  | prev, c :: rest =>
    match matchFiveAt prev (c :: rest) with
    | some m => some m
    | none => cpScan (some c) rest

/-- `address.match(CP_REGEX)?.[0]`. -/
def cpMatchStr (s : String) : Option String :=
  (cpScan none s.toList).map String.mk

/-! ### The strict structured strategy (`src/index.ts`) -/

/-- The JSON value found at `obj?.price_m2_eur_int` after a successful
`JSON.parse`: the field may be absent (or the parsed value may not be an
object), may be a number, or may hold a non-numeric value whose JS
truthiness is recorded. -/
inductive JsField where
  | absent
  | num (q : ℚ)
  | nonNum (truthy : Bool)
deriving DecidableEq

/-- Outcome of one prompt attempt in the strict strategy: the chat call
itself may throw, `JSON.parse` may fail, or it yields an object whose
`price_m2_eur_int` field is `f`. -/
inductive PromptRes where
  | callThrow
  | parseFail
  | parsed (f : JsField)
deriving DecidableEq

/-- `obj?.price_m2_eur_int && Number.isInteger(obj.price_m2_eur_int)`:
the field must be JS-truthy (so `0` is rejected) and an integer
(`Number.isInteger` is false on every non-number). -/
def acceptStrict : JsField → Option ℤ
  | .num q => if q ≠ 0 ∧ q.den = 1 then some q.num else none
  | _ => none

/-- The `for (const p of prompts)` loop of the strict
`fetchPriceM2WithOpenAI`: the chat call is outside the `try`, so a throw
propagates; a `JSON.parse` failure hits the `catch { continue }`; a
parsed object is accepted or falls through to the next prompt. -/
def fetchStrictLoop : List PromptRes → Except Unit (Option ℤ)
  | [] => .ok none
  | .callThrow :: _ => .error ()
  | .parseFail :: rest => fetchStrictLoop rest
  | .parsed f :: rest =>
    match acceptStrict f with
    | some z => .ok (some z)
    | none => fetchStrictLoop rest

/-- `fetchPriceM2WithOpenAI` (strict variant, `src/index.ts`): an empty
API key short-circuits to `null`; otherwise the two prompt attempts are
tried in order. -/
def fetchPriceM2Strict (apiKey : Bool) (attempts : List PromptRes) :
    Except Unit (Option ℤ) :=
  if !apiKey then .ok none else fetchStrictLoop attempts

/-! ### The request handler (`app.post "/valuation/v1/price-m2"`, `part_000`) -/

/-- `type Source = "cached" | "openai" | "mitma" | "na"` — in the spec's
vocabulary: `cached`, `external_provider`, `authoritative_dataset`,
`unavailable`. -/
inductive Source where
  | cached
  | openai
  | mitma
  | na
deriving DecidableEq

/-- A row of the `price_m2_cache` table, as selected by
`getCachedPrice` (`select("price_m2, fresh_until")`).  `fresh_until` is
a millisecond timestamp; a missing value behaves as `0` in the code. -/
structure CacheRow where
  price_m2 : ℚ
  fresh_until : Option ℕ
deriving DecidableEq

/-- Outcome of an awaited datastore write.  The client may resolve
normally, resolve with an in-band error object (which the code never
inspects — supabase-js reports write failures this way), or reject, in
which case the `await` raises and the route's `catch` answers 500. -/
inductive WriteRes where
  | ok
  | inbandErr
  | reject
deriving DecidableEq

/-- The external calls the handler performs, in order. -/
inductive Effect where
  | readCache (cp : String)
  | callProvider (addr : String)
  | writeCache (cp : String)
  | writeLead (lead : String)
deriving DecidableEq

def Effect.isCallProvider : Effect → Bool
  | .callProvider _ => true
  | _ => false

def Effect.isWriteCache : Effect → Bool
  | .writeCache _ => true
  | _ => false

/-- The JSON payload of a 200 response. -/
structure Payload where
  lead_id : String
  price_m2 : Option ℚ
  valuation_price : Option ℤ
  source : Source
  confidence : ℕ
deriving DecidableEq

/-- The three response shapes of the route. -/
inductive Resp where
  | badRequest (error : String)
  | serverError
  | okResp (p : Payload)
deriving DecidableEq

/-- The request body (`InBody`).  Absent/empty strings are both falsy in
the validation checks, so they are modelled as `""`; the optional
`square_meters` is an `Option ℚ` (`undefined` and `0` are both falsy
where the code tests it). -/
structure Req where
  lead_id : String
  address : String
  square_meters : Option ℚ
  postal_code : String

/-- The environment of one request: the clock, the configured API key,
the cache table (with its read possibly reporting an error), the raw
provider call outcome, and the fate of the two writes. -/
structure Env where
  now : ℕ
  apiKey : Bool
  cacheErr : Bool
  cacheDb : String → Option CacheRow
  providerRaw : Except Unit (Option String)
  cacheWriteRes : WriteRes
  leadWriteRes : WriteRes

/-- `getCachedPrice`: a read error or absent row is `null`; a row is
returned only when `fresh_until` is set, nonzero and strictly in the
future (`if (!fresh || fresh <= Date.now()) return null`). -/
def getCachedPrice (env : Env) (cp : String) : Option ℚ :=
  if env.cacheErr then none
  else
    match env.cacheDb cp with
    | none => none
    | some row =>
      let fresh := row.fresh_until.getD 0
      if fresh = 0 ∨ fresh ≤ env.now then none else some row.price_m2

/-- `price && body.square_meters ? Math.round(price * body.square_meters) : null`. -/
def vpOf (price : Option ℚ) (sqm : Option ℚ) : Option ℤ :=
  match price, sqm with
  | some p, some a => if p ≠ 0 ∧ a ≠ 0 then some (round (p * a)) else none
  | _, _ => none

/-- `price ? (source === "openai" || source === "cached" ? 85 : 60) : 0`. -/
def confOf (price : Option ℚ) (src : Source) : ℕ :=
  if price.getD 0 ≠ 0 then (if src = .openai ∨ src = .cached then 85 else 60) else 0

/-- The tail of the route after `price` and `source` are settled:
compute `valuation_price` and `confidence`, `await updateLeadRow` (whose
rejection the route's `catch` turns into a 500), and answer. -/
def finishOk (env : Env) (body : Req) (price : Option ℚ) (src : Source)
    (tr : List Effect) : Resp × List Effect :=
  let tr1 := tr ++ [Effect.writeLead body.lead_id]
  match env.leadWriteRes with
  | .reject => (.serverError, tr1)
  | _ =>
    (.okResp ⟨body.lead_id, price, vpOf price body.square_meters,
              src, confOf price src⟩, tr1)

/-- The `POST /valuation/v1/price-m2` route of `part_000`: validation,
postal-code resolution, cache-aside lookup, provider fallback with cache
write-back, valuation, persistence.  The pair's second component is the
trace of external calls attempted. -/
def handler (env : Env) (body : Req) : Resp × List Effect :=
  if body.lead_id = "" ∨ body.address = "" then
    (.badRequest "lead_id y address son obligatorios", [])
  else
    let cp := if body.postal_code ≠ "" then body.postal_code
              else trimStr ((cpMatchStr body.address).getD "")
    if cp = "" then (.badRequest "no se pudo detectar el CP", [])
    else
      let price0 := getCachedPrice env cp
      let tr0 := [Effect.readCache cp]
      if price0.getD 0 ≠ 0 then
        finishOk env body price0 .cached tr0
      else
        let tr1 := tr0 ++ [Effect.callProvider body.address]
        match fetchPriceM2WithOpenAI env.apiKey env.providerRaw with
        | .error _ => (.serverError, tr1)
        | .ok pres =>
          let price1 : Option ℚ := Option.map (fun z : ℤ => (z : ℚ)) pres
          if price1.getD 0 ≠ 0 then
            let tr2 := tr1 ++ [Effect.writeCache cp]
            match env.cacheWriteRes with
            | .reject => (.serverError, tr2)
            | _ => finishOk env body price1 .openai tr2
          else
            finishOk env body price1 .na tr1

/-! ### Index-based characterizations of `CP_REGEX` matching -/

/-- The character preceding position `i` when scanning `l` with initial
previous character `prev`. -/
def prevAt (prev : Option Char) (l : List Char) : ℕ → Option Char
  | 0 => prev
  | i + 1 => l.get? i

/-- Boundary test of the amended reading of the extractor: position `i`
of `s` is off the end of the string or holds a non-word character. -/
def noWordAt (s : List Char) (i : ℕ) : Bool := wordBreak (s.get? i)

/-- Position `i` of `s` starts a run of exactly five digits delimited on
both sides by a string boundary or a non-word character (the semantics
of `\b\d{5}\b`). -/
def wordBoundedRunAt (s : List Char) (i : ℕ) : Bool :=
  (((s.drop i).take 5).length == 5) && ((s.drop i).take 5).all Char.isDigit
    && (decide (i = 0) || noWordAt s (i - 1)) && noWordAt s (i + 5)

/-- Boundary test of the claim's reading: position `i` is off the end of
the string or holds a non-digit character. -/
def nonDigitAt (s : List Char) (i : ℕ) : Bool :=
  match s.get? i with
  | none => true
  | some c => !c.isDigit

/-- Position `i` of `s` starts a maximal run of exactly five digits
bounded by non-digit characters or string boundaries — the claim's
stated reading of the extractor. -/
def digitBoundedRunAt (s : List Char) (i : ℕ) : Bool :=
  (((s.drop i).take 5).length == 5) && ((s.drop i).take 5).all Char.isDigit
    && (decide (i = 0) || nonDigitAt s (i - 1)) && nonDigitAt s (i + 5)

/-! ### Concrete fixtures used by the witnesses and counterexamples -/

/-- A cache row for postal code 28013: 3000 €/m², fresh until t=1000. -/
def rowFresh : CacheRow := ⟨3000, some 1000⟩

def dbMadrid : String → Option CacheRow :=
  fun cp => if cp = "28013" then some rowFresh else none

def dbZero : String → Option CacheRow :=
  fun cp => if cp = "28013" then some ⟨0, some 1000⟩ else none

def envHit : Env := ⟨500, true, false, dbMadrid, .ok (some "NA"), .ok, .ok⟩

def envZero : Env := ⟨500, true, false, dbZero, .ok (some "000"), .ok, .ok⟩

def envMiss : Env := ⟨500, true, false, fun _ => none, .ok (some "6526 €/m²"), .ok, .ok⟩

def envThrow : Env := ⟨500, true, false, fun _ => none, .error (), .ok, .ok⟩

def envLeadInband : Env := ⟨500, true, false, dbMadrid, .ok (some "NA"), .ok, .inbandErr⟩

def envCacheReject : Env := ⟨500, true, false, fun _ => none, .ok (some "6526 €/m²"), .reject, .ok⟩

def envCacheInband : Env := ⟨500, true, false, fun _ => none, .ok (some "6526 €/m²"), .inbandErr, .ok⟩

def envLeadReject : Env := ⟨500, true, false, dbMadrid, .ok (some "NA"), .ok, .reject⟩

def envMissNA : Env := ⟨500, true, false, fun _ => none, .ok (some "NA"), .ok, .ok⟩

def reqStd : Req := ⟨"L1", "Calle Mayor 5, 28013 Madrid", none, "28013"⟩

def reqArea0 : Req := ⟨"L1", "Calle Mayor 5, 28013 Madrid", some 0, "28013"⟩

def reqArea80 : Req := ⟨"L1", "Calle Mayor 5, 28013 Madrid", some 80, "28013"⟩

/-! ## Helper lemmas -/

lemma getCachedPrice_fresh (env : Env) (cp : String) (row : CacheRow) (t : ℕ)
    (he : env.cacheErr = false) (hdb : env.cacheDb cp = some row)
    (hfu : row.fresh_until = some t) (hlt : env.now < t) :
    getCachedPrice env cp = some row.price_m2 := by
  simp [getCachedPrice, he, hdb, hfu]
  omega

lemma getCachedPrice_stale (env : Env) (cp : String)
    (h : ∀ row, env.cacheDb cp = some row → row.fresh_until.getD 0 ≤ env.now) :
    getCachedPrice env cp = none := by
  unfold getCachedPrice
  cases hc : env.cacheErr
  · rcases hdb : env.cacheDb cp with _ | row
    · simp
    · have ht := h row hdb
      simp [ht]
  · simp

lemma getCachedPrice_zero (env : Env) (cp : String) (row : CacheRow)
    (hdb : env.cacheDb cp = some row) (hz : row.price_m2 = 0) :
    (getCachedPrice env cp).getD 0 = 0 := by
  unfold getCachedPrice
  cases hc : env.cacheErr
  · simp only [Bool.false_eq_true, if_false, hdb]
    split <;> simp [hz]
  · simp

lemma finishOk_snd (env : Env) (body : Req) (price : Option ℚ) (src : Source)
    (tr : List Effect) :
    (finishOk env body price src tr).2 = tr ++ [Effect.writeLead body.lead_id] := by
  unfold finishOk
  split <;> rfl

lemma finishOk_fst_ok (env : Env) (body : Req) (price : Option ℚ) (src : Source)
    (tr : List Effect) (h : env.leadWriteRes ≠ .reject) :
    (finishOk env body price src tr).1 =
      .okResp ⟨body.lead_id, price, vpOf price body.square_meters, src, confOf price src⟩ := by
  cases hw : env.leadWriteRes <;> simp [finishOk, hw] at h ⊢

lemma finishOk_conf_inv (env : Env) (body : Req) (price : Option ℚ) (src : Source)
    (tr : List Effect) (p : Payload) (tr' : List Effect)
    (h : finishOk env body price src tr = (.okResp p, tr'))
    (hinv : (price.getD 0 ≠ 0 ∧ (src = .openai ∨ src = .cached)) ∨
            (price.getD 0 = 0 ∧ src = .na)) :
    ((p.source = .cached ∨ p.source = .openai) → p.confidence = 85) ∧
    (p.confidence = 0 ↔ p.source = .na) := by
  unfold finishOk at h
  split at h
  · simp at h
  · have hp : p = ⟨body.lead_id, price, vpOf price body.square_meters, src, confOf price src⟩ := by
      have h1 := congrArg Prod.fst h
      simp at h1
      exact h1.symm
    subst hp
    rcases hinv with ⟨h1, h2⟩ | ⟨h1, h2⟩
    · rcases h2 with h2 | h2 <;> subst h2 <;> simp [confOf, h1]
    · subst h2; simp [confOf, h1]

lemma finishOk_ok_inv (env : Env) (body : Req) (price : Option ℚ) (src : Source)
    (tr : List Effect) (p : Payload) (tr' : List Effect)
    (h : finishOk env body price src tr = (.okResp p, tr')) :
    p = ⟨body.lead_id, price, vpOf price body.square_meters, src, confOf price src⟩ := by
  unfold finishOk at h
  split at h
  · simp at h
  · have h1 := congrArg Prod.fst h
    simp at h1
    exact h1.symm

lemma fetch_zero : fetchPriceM2WithOpenAI true (.ok (some "000")) = .ok (some 0) := by
  have h1 : fetchPriceM2WithOpenAI true (.ok (some "000")) =
      .ok (some (round ((digitsToNat ['0', '0', '0'] : ℚ)))) := rfl
  rw [h1, show digitsToNat ['0', '0', '0'] = 0 from rfl]
  norm_num

lemma fetch_6526 : fetchPriceM2WithOpenAI true (.ok (some "6526 €/m²")) = .ok (some 6526) := by
  have h1 : fetchPriceM2WithOpenAI true (.ok (some "6526 €/m²")) =
      .ok (some (round ((digitsToNat ['6', '5', '2', '6'] : ℚ)))) := rfl
  rw [h1, show digitsToNat ['6', '5', '2', '6'] = 6526 from rfl]
  norm_num [round_eq]

lemma vpOf_ne_none_iff (price sqm : Option ℚ) :
    vpOf price sqm ≠ none ↔ (price.getD 0 ≠ 0 ∧ sqm.getD 0 ≠ 0) := by
  rcases price with _ | q <;> rcases sqm with _ | a <;> simp [vpOf]

lemma finishOk_vp_inv (env : Env) (body : Req) (price : Option ℚ) (src : Source)
    (tr : List Effect) (p : Payload) (tr' : List Effect)
    (h : finishOk env body price src tr = (.okResp p, tr')) :
    p.price_m2 = price ∧ p.valuation_price = vpOf price body.square_meters := by
  have hp := finishOk_ok_inv _ _ _ _ _ _ _ h
  subst hp
  exact ⟨rfl, rfl⟩

lemma handler_miss_provider_once (env : Env) (lead addr : String) (sqm : Option ℚ)
    (cp : String) (hl : lead ≠ "") (ha : addr ≠ "") (hcp : cp ≠ "")
    (hmiss : (getCachedPrice env cp).getD 0 = 0) :
    (handler env ⟨lead, addr, sqm, cp⟩).2.countP Effect.isCallProvider = 1 := by
  simp only [handler]
  rw [if_neg (by simp [hl, ha]), if_pos hcp, if_neg hcp]
  rw [if_neg (by simp [hmiss])]
  rcases hf : fetchPriceM2WithOpenAI env.apiKey env.providerRaw with e | pres
  · simp [Effect.isCallProvider]
  · rcases pres with _ | z
    · simp [finishOk_snd, Effect.isCallProvider]
    · by_cases hz : ((z : ℚ)) = 0
      · simp [hz, finishOk_snd, Effect.isCallProvider]
      · simp only [Option.map_some', Option.getD_some]
        rw [if_pos hz]
        rcases hw : env.cacheWriteRes <;>
          simp [finishOk_snd, Effect.isCallProvider]

lemma handler_hit_finish (env : Env) (lead addr : String) (sqm : Option ℚ) (cp : String)
    (row : CacheRow) (t : ℕ) (hl : lead ≠ "") (ha : addr ≠ "") (hcp : cp ≠ "")
    (he : env.cacheErr = false) (hdb : env.cacheDb cp = some row)
    (hfu : row.fresh_until = some t) (hlt : env.now < t) (hpos : 0 < row.price_m2) :
    handler env ⟨lead, addr, sqm, cp⟩ =
      finishOk env ⟨lead, addr, sqm, cp⟩ (some row.price_m2) .cached
        [Effect.readCache cp] := by
  have hg := getCachedPrice_fresh env cp row t he hdb hfu hlt
  simp [handler, hl, ha, hcp, hg, hpos.ne']

lemma finishOk_fst_reject (env : Env) (body : Req) (price : Option ℚ) (src : Source)
    (tr : List Effect) (h : env.leadWriteRes = .reject) :
    (finishOk env body price src tr).1 = .serverError := by
  simp [finishOk, h]

lemma prevAt_cons (prev : Option Char) (c : Char) (rest : List Char) (i : ℕ) :
    prevAt prev (c :: rest) (i + 1) = prevAt (some c) rest i := by
  cases i <;> rfl

lemma head?_drop (l : List Char) (n : ℕ) : (l.drop n).head? = l.get? n := by
  induction l generalizing n with
  | nil => cases n <;> rfl
  | cons a t ih =>
    cases n with
    | zero => rfl
    | succ m => exact ih m

lemma wordBreak_prevAt (l : List Char) (i : ℕ) :
    wordBreak (prevAt none l i) = (decide (i = 0) || noWordAt l (i - 1)) := by
  cases i with
  | zero => rfl
  | succ j => simp [prevAt, noWordAt]

lemma matchFiveAt_eq_some (l : List Char) (i : ℕ) (r : List Char) :
    matchFiveAt (prevAt none l i) (l.drop i) = some r ↔
      (wordBoundedRunAt l i = true ∧ r = (l.drop i).take 5) := by
  rcases hd : l.drop i with _ | ⟨a, _ | ⟨b, _ | ⟨c, _ | ⟨d, _ | ⟨e, rest⟩⟩⟩⟩⟩ <;>
    simp only [matchFiveAt, wordBoundedRunAt, hd] <;>
    try simp
  -- main case: l.drop i = a :: b :: c :: d :: e :: rest
  have hba : noWordAt l (i + 5) = wordBreak rest.head? := by
    unfold noWordAt
    have h5 : l.get? (i + 5) = rest.head? := by
      rw [← head?_drop]
      have hdd : l.drop (i + 5) = (l.drop i).drop 5 := by rw [List.drop_drop]
      rw [hdd, hd]
      rfl
    rw [h5]
  have hbb := wordBreak_prevAt l i
  rw [hba, hbb]
  simp only [Bool.or_eq_true, decide_eq_true_eq]
  constructor
  · rintro ⟨⟨⟨⟨⟨⟨⟨h1, h2⟩, h3⟩, h4⟩, h5⟩, h6⟩, h7⟩, heq⟩
    exact ⟨⟨⟨⟨h2, h3, h4, h5, h6⟩, h1⟩, h7⟩, heq.symm⟩
  · rintro ⟨⟨⟨⟨hd1, hd2, hd3, hd4, hd5⟩, h1⟩, h7⟩, heq⟩
    exact ⟨⟨⟨⟨⟨⟨⟨h1, hd1⟩, hd2⟩, hd3⟩, hd4⟩, hd5⟩, h7⟩, heq.symm⟩

lemma cpScan_none_iff (prev : Option Char) (l : List Char) :
    cpScan prev l = none ↔
      ∀ i, matchFiveAt (prevAt prev l i) (l.drop i) = none := by
  induction l generalizing prev with
  | nil => simp [cpScan, matchFiveAt]
  | cons c rest ih =>
    simp only [cpScan]
    rcases hm : matchFiveAt prev (c :: rest) with _ | m
    · simp only []
      rw [ih (some c)]
      constructor
      · intro h i
        cases i with
        | zero => simpa using hm
        | succ j =>
          rw [prevAt_cons, List.drop_succ_cons]
          exact h j
      · intro h j
        have hj := h (j + 1)
        rwa [prevAt_cons, List.drop_succ_cons] at hj
    · simp only []
      constructor
      · intro h
        exact absurd h (by simp)
      · intro h
        have h0 := h 0
        simp only [prevAt, List.drop_zero] at h0
        rw [hm] at h0
        exact absurd h0 (by simp)

lemma cpScan_some_iff (prev : Option Char) (l : List Char) (r : List Char) :
    cpScan prev l = some r ↔
      ∃ i, matchFiveAt (prevAt prev l i) (l.drop i) = some r ∧
        ∀ j, j < i → matchFiveAt (prevAt prev l j) (l.drop j) = none := by
  induction l generalizing prev with
  | nil =>
    simp only [cpScan]
    constructor
    · intro h; exact absurd h (by simp)
    · rintro ⟨i, h1, _⟩
      rw [List.drop_nil] at h1
      exact absurd h1 (by simp [matchFiveAt])
  | cons c rest ih =>
    simp only [cpScan]
    rcases hm : matchFiveAt prev (c :: rest) with _ | m
    · simp only []
      rw [ih (some c)]
      constructor
      · rintro ⟨i, h1, h2⟩
        refine ⟨i + 1, ?_, ?_⟩
        · rwa [prevAt_cons, List.drop_succ_cons]
        · intro j hj
          cases j with
          | zero => simpa using hm
          | succ k =>
            rw [prevAt_cons, List.drop_succ_cons]
            exact h2 k (by omega)
      · rintro ⟨i, h1, h2⟩
        cases i with
        | zero =>
          simp only [prevAt, List.drop_zero] at h1
          rw [hm] at h1
          exact absurd h1 (by simp)
        | succ k =>
          refine ⟨k, ?_, ?_⟩
          · rwa [prevAt_cons, List.drop_succ_cons] at h1
          · intro j hj
            have := h2 (j + 1) (by omega)
            rwa [prevAt_cons, List.drop_succ_cons] at this
    · simp only []
      constructor
      · intro h
        refine ⟨0, ?_, fun j hj => absurd hj (by omega)⟩
        simp only [prevAt, List.drop_zero]
        rw [hm]
        exact h
      · rintro ⟨i, h1, h2⟩
        cases i with
        | zero =>
          simp only [prevAt, List.drop_zero] at h1
          rw [hm] at h1
          exact h1
        | succ k =>
          have := h2 0 (by omega)
          simp only [prevAt, List.drop_zero] at this
          rw [hm] at this
          exact absurd this (by simp)

/-! ## Claim theorems -/

/-- C4 (confirmed): a request whose postal code has a cache entry with
`now < fresh_until` (and, per the data model, a positive stored price)
is answered from the cache — `source = cached`, the cached price is
returned, and the provider is never invoked; an absent or expired entry
is a miss and triggers exactly one provider invocation. -/
theorem c4_cache_freshness :
    (∀ (env : Env) (lead addr : String) (sqm : Option ℚ) (cp : String)
       (row : CacheRow) (t : ℕ),
      lead ≠ "" → addr ≠ "" → cp ≠ "" →
      env.cacheErr = false → env.cacheDb cp = some row →
      row.fresh_until = some t → env.now < t → 0 < row.price_m2 →
      ((handler env ⟨lead, addr, sqm, cp⟩).2.countP Effect.isCallProvider = 0) ∧
      (env.leadWriteRes ≠ .reject →
        (handler env ⟨lead, addr, sqm, cp⟩).1 =
          .okResp ⟨lead, some row.price_m2, vpOf (some row.price_m2) sqm, .cached,
                   confOf (some row.price_m2) .cached⟩)) ∧
    (∀ (env : Env) (lead addr : String) (sqm : Option ℚ) (cp : String),
      lead ≠ "" → addr ≠ "" → cp ≠ "" →
      (∀ row, env.cacheDb cp = some row → row.fresh_until.getD 0 ≤ env.now) →
      (handler env ⟨lead, addr, sqm, cp⟩).2.countP Effect.isCallProvider = 1) := by
  constructor
  · intro env lead addr sqm cp row t hl ha hcp he hdb hfu hlt hpos
    have hh := handler_hit_finish env lead addr sqm cp row t hl ha hcp he hdb hfu hlt hpos
    rw [hh]
    constructor
    · simp [finishOk_snd, List.countP_append, List.countP_cons, Effect.isCallProvider]
    · intro hw
      exact finishOk_fst_ok _ _ _ _ _ hw
  · intro env lead addr sqm cp hl ha hcp hstale
    exact handler_miss_provider_once env lead addr sqm cp hl ha hcp
      (by simp [getCachedPrice_stale env cp hstale])

/-- C4 witness: the fresh entry for 28013 (price 3000, `now = 500 <
1000 = fresh_until`) is served from cache with no provider call, and the
empty cache triggers exactly one provider invocation. -/
theorem c4_witness :
    ((handler envHit reqStd).2.countP Effect.isCallProvider = 0 ∧
      (envHit.leadWriteRes ≠ .reject →
        (handler envHit reqStd).1 =
          .okResp ⟨"L1", some rowFresh.price_m2, vpOf (some rowFresh.price_m2) none,
                   .cached, confOf (some rowFresh.price_m2) .cached⟩)) ∧
    (handler envMiss reqStd).2.countP Effect.isCallProvider = 1 := by
  constructor
  · exact c4_cache_freshness.1 envHit "L1" "Calle Mayor 5, 28013 Madrid" none "28013"
      rowFresh 1000 (by decide) (by decide) (by decide) rfl rfl rfl (by decide)
      (by norm_num [rowFresh])
  · exact c4_cache_freshness.2 envMiss "L1" "Calle Mayor 5, 28013 Madrid" none "28013"
      (by decide) (by decide) (by decide) (fun row h => Option.noConfusion h)

/-- C5 (confirmed): a request missing `lead_id` or `address` is answered
with the validation error and no external call of any kind is performed;
the same holds when no postal code is supplied and none can be extracted
from the address. -/
theorem c5_validation :
    (∀ (env : Env) (body : Req), body.lead_id = "" ∨ body.address = "" →
      handler env body = (.badRequest "lead_id y address son obligatorios", [])) ∧
    (∀ (env : Env) (body : Req), body.lead_id ≠ "" → body.address ≠ "" →
      body.postal_code = "" → cpMatchStr body.address = none →
      handler env body = (.badRequest "no se pudo detectar el CP", [])) := by
  constructor
  · intro env body hv
    simp [handler, hv]
  · intro env body hl ha hp hm
    simp [handler, hl, ha, hp, hm]
    intro hfalse
    exact absurd rfl hfalse

/-- C5 witness: a request with empty `lead_id`, and a request whose
address contains no five-digit run, are both rejected with an empty
effect trace. -/
theorem c5_witness :
    handler envHit ⟨"", "x", none, ""⟩ =
      (.badRequest "lead_id y address son obligatorios", []) ∧
    handler envHit ⟨"L1", "no postal here", none, ""⟩ =
      (.badRequest "no se pudo detectar el CP", []) := by
  constructor
  · exact c5_validation.1 envHit ⟨"", "x", none, ""⟩ (Or.inl rfl)
  · exact c5_validation.2 envHit ⟨"L1", "no postal here", none, ""⟩
      (by decide) (by decide) rfl (by decide)

/-- C7 (confirmed): every 200 response carries confidence 85 when its
source is `cached` or `openai` (the spec's `external_provider`), and
confidence 0 exactly when its source is `na` (the spec's
`unavailable`). -/
theorem c7_confidence (env : Env) (body : Req) (p : Payload) (tr : List Effect)
    (h : handler env body = (.okResp p, tr)) :
    ((p.source = .cached ∨ p.source = .openai) → p.confidence = 85) ∧
    (p.confidence = 0 ↔ p.source = .na) := by
  simp only [handler] at h
  repeat' split at h
  any_goals (refine absurd h ?_; simp; done)
  all_goals refine finishOk_conf_inv _ _ _ _ _ _ _ h ?_
  all_goals first
    | ((refine Or.inl ⟨?_, ?_⟩ <;> (first | assumption | simp)); done)
    | (refine Or.inr ⟨not_not.mp ?_, rfl⟩; assumption)

/-- C7 witness: the cache-hit run for 28013 yields a payload with source
`cached` and confidence 85, satisfying both conclusions. -/
theorem c7_witness :
    (((⟨"L1", some 3000, none, .cached, 85⟩ : Payload).source = .cached ∨
      (⟨"L1", some 3000, none, .cached, 85⟩ : Payload).source = .openai) →
      (⟨"L1", some 3000, none, .cached, 85⟩ : Payload).confidence = 85) ∧
    ((⟨"L1", some 3000, none, .cached, 85⟩ : Payload).confidence = 0 ↔
      (⟨"L1", some 3000, none, .cached, 85⟩ : Payload).source = .na) :=
  c7_confidence envHit reqStd ⟨"L1", some 3000, none, .cached, 85⟩
    [.readCache "28013", .writeLead "L1"] (by decide)

/-- C6 (corrected, amended form): in every 200 response,
`valuation_price` is present iff the returned `price_m2` and the request
`square_meters` are both present and nonzero (the code's JS truthiness
tests treat a present `0` like an absent value), and when present it
equals `round(price_m2 * square_meters)`. -/
theorem c6_total_price (env : Env) (body : Req) (p : Payload) (tr : List Effect)
    (h : handler env body = (.okResp p, tr)) :
    (p.valuation_price ≠ none ↔ (p.price_m2.getD 0 ≠ 0 ∧ body.square_meters.getD 0 ≠ 0)) ∧
    (∀ q a, p.price_m2 = some q → body.square_meters = some a → q ≠ 0 → a ≠ 0 →
      p.valuation_price = some (round (q * a))) := by
  simp only [handler] at h
  repeat' split at h
  any_goals (refine absurd h ?_; simp; done)
  all_goals
    obtain ⟨h1, h2⟩ := finishOk_vp_inv _ _ _ _ _ _ _ h
    rw [h2, ← h1]
    constructor
  all_goals first
    | exact vpOf_ne_none_iff _ _
    | (intro q a hq ha hq0 ha0
       rw [hq, ha]
       simp [vpOf, hq0, ha0])

/-- C6 witness: the cache-hit response for 28013 satisfies both
conclusions of the amended total-price invariant. -/
theorem c6_witness :
    (((⟨"L1", some 3000, none, .cached, 85⟩ : Payload).valuation_price ≠ none ↔
      ((⟨"L1", some 3000, none, .cached, 85⟩ : Payload).price_m2.getD 0 ≠ 0 ∧
        reqStd.square_meters.getD 0 ≠ 0)) ∧
     (∀ q a, (⟨"L1", some 3000, none, .cached, 85⟩ : Payload).price_m2 = some q →
       reqStd.square_meters = some a → q ≠ 0 → a ≠ 0 →
       (⟨"L1", some 3000, none, .cached, 85⟩ : Payload).valuation_price =
         some (round (q * a)))) :=
  c6_total_price envHit reqStd ⟨"L1", some 3000, none, .cached, 85⟩
    [.readCache "28013", .writeLead "L1"] (by decide)

/-- C6 counterexample: the claim as stated fails twice over.  With a
fresh cached price 3000 and a present input area `0`, both
`price_per_area` and the input area are present in the result, yet
`total_price` is absent (`null`), not `round(3000 * 0) = 0`; and with a
provider result of `0` and area `80`, the response carries the present
number `price_m2 = 0` with a present positive area, yet
`valuation_price` is again `null`. -/
theorem c6_counterexample :
    (handler envHit reqArea0 =
      (.okResp ⟨"L1", some 3000, none, .cached, 85⟩,
       [.readCache "28013", .writeLead "L1"]) ∧
     (some (3000 : ℚ)).isSome ∧ reqArea0.square_meters.isSome) ∧
    ((handler envZero reqArea80).1 = .okResp ⟨"L1", some 0, none, .na, 0⟩ ∧
     reqArea80.square_meters = some 80) := by
  refine ⟨⟨by decide, rfl, rfl⟩, ?_, rfl⟩
  have hf : fetchPriceM2WithOpenAI envZero.apiKey envZero.providerRaw = .ok (some 0) :=
    fetch_zero
  have hh : handler envZero reqArea80 =
      finishOk envZero reqArea80 (some ((0 : ℤ) : ℚ)) .na
        ([Effect.readCache "28013"] ++
          [Effect.callProvider "Calle Mayor 5, 28013 Madrid"]) := by
    simp only [handler]
    rw [if_neg (show ¬(reqArea80.lead_id = "" ∨ reqArea80.address = "") by decide)]
    rw [if_pos (show reqArea80.postal_code ≠ "" by decide)]
    rw [if_neg (show ¬(reqArea80.postal_code = "") by decide)]
    rw [if_neg (show ¬((getCachedPrice envZero reqArea80.postal_code).getD 0 ≠ 0) by decide)]
    rw [hf]
    simp [reqArea80, envZero]
  rw [hh, finishOk_fst_ok _ _ _ _ _ (by decide)]
  simp [vpOf, confOf, reqArea80]

/-- C10 (confirmed): a price of `0` behaves as absent at the interface:
a cache row storing `price_m2 = 0` is treated as a miss (the provider is
invoked once and a 200 response never carries `source = cached`), and a
provider result of `0` is not written back to the cache and yields
`source = na` (`unavailable`) with confidence `0`. -/
theorem c10_zero_as_absent :
    (∀ (env : Env) (lead addr : String) (sqm : Option ℚ) (cp : String) (row : CacheRow),
      lead ≠ "" → addr ≠ "" → cp ≠ "" →
      env.cacheDb cp = some row → row.price_m2 = 0 →
      (handler env ⟨lead, addr, sqm, cp⟩).2.countP Effect.isCallProvider = 1 ∧
      (∀ p tr, handler env ⟨lead, addr, sqm, cp⟩ = (.okResp p, tr) → p.source ≠ .cached)) ∧
    (∀ (env : Env) (lead addr : String) (sqm : Option ℚ) (cp : String),
      lead ≠ "" → addr ≠ "" → cp ≠ "" →
      (getCachedPrice env cp).getD 0 = 0 →
      fetchPriceM2WithOpenAI env.apiKey env.providerRaw = .ok (some 0) →
      (handler env ⟨lead, addr, sqm, cp⟩).2.countP Effect.isWriteCache = 0 ∧
      (∀ p tr, handler env ⟨lead, addr, sqm, cp⟩ = (.okResp p, tr) →
        p.source = .na ∧ p.confidence = 0 ∧ p.price_m2 = some 0)) := by
  constructor
  · intro env lead addr sqm cp row hl ha hcp hdb hz
    have hmiss := getCachedPrice_zero env cp row hdb hz
    refine ⟨handler_miss_provider_once env lead addr sqm cp hl ha hcp hmiss, ?_⟩
    intro p tr h
    simp only [handler] at h
    repeat' split at h
    any_goals (refine absurd h ?_; simp; done)
    any_goals contradiction
    all_goals
      have hp := finishOk_ok_inv _ _ _ _ _ _ _ h
      subst hp
      simp
  · intro env lead addr sqm cp hl ha hcp hmiss hf
    have hh : handler env ⟨lead, addr, sqm, cp⟩ =
        finishOk env ⟨lead, addr, sqm, cp⟩ (some ((0 : ℤ) : ℚ)) .na
          ([Effect.readCache cp] ++ [Effect.callProvider addr]) := by
      simp only [handler]
      rw [if_neg (by simp [hl, ha]), if_pos hcp, if_neg hcp]
      rw [if_neg (by simp [hmiss]), hf]
      simp
    constructor
    · rw [hh]
      simp [finishOk_snd, Effect.isWriteCache]
    · intro p tr h
      rw [hh] at h
      have hp := finishOk_ok_inv _ _ _ _ _ _ _ h
      subst hp
      refine ⟨rfl, by simp [confOf], by simp⟩

/-- C10 witness: for 28013 with a fresh cache row holding price 0 and a
provider answering "000" (which parses and rounds to 0), the provider is
invoked once, nothing is written back, and the 200 response has source
`na`, confidence 0. -/
theorem c10_witness :
    ((handler envZero reqArea80).2.countP Effect.isCallProvider = 1 ∧
     (∀ p tr, handler envZero reqArea80 = (.okResp p, tr) → p.source ≠ .cached)) ∧
    ((handler envZero reqArea80).2.countP Effect.isWriteCache = 0 ∧
     (∀ p tr, handler envZero reqArea80 = (.okResp p, tr) →
       p.source = .na ∧ p.confidence = 0 ∧ p.price_m2 = some 0)) := by
  constructor
  · exact c10_zero_as_absent.1 envZero "L1" "Calle Mayor 5, 28013 Madrid" (some 80)
      "28013" ⟨0, some 1000⟩ (by decide) (by decide) (by decide) rfl rfl
  · exact c10_zero_as_absent.2 envZero "L1" "Calle Mayor 5, 28013 Madrid" (some 80)
      "28013" (by decide) (by decide) (by decide) (by decide) fetch_zero

/-- C1 (corrected, amended form): a provider response that fails to
parse is absorbed — the free-text strategy answers `.ok` on every
successful call, the strict strategy never raises unless a chat call
raises, and the engine then completes with `source = na`, confidence 0.
An exception from the underlying chat call itself, however, propagates
out of both cited provider functions, and the engine answers the request
with the generic 500 server error instead of `source = na`. -/
theorem c1_provider_error_handling :
    (∀ (k : Bool) (c : Option String), ∃ v, fetchPriceM2WithOpenAI k (.ok c) = .ok v) ∧
    (∀ rs : List PromptRes, (∀ r ∈ rs, r ≠ .callThrow) → ∃ v, fetchStrictLoop rs = .ok v) ∧
    (fetchPriceM2WithOpenAI true (.error ()) = .error () ∧
      ∀ rs : List PromptRes, fetchStrictLoop (.callThrow :: rs) = .error ()) ∧
    (∀ (env : Env) (lead addr : String) (sqm : Option ℚ) (cp : String),
      lead ≠ "" → addr ≠ "" → cp ≠ "" →
      (getCachedPrice env cp).getD 0 = 0 →
      (fetchPriceM2WithOpenAI env.apiKey env.providerRaw = .ok none →
        env.leadWriteRes ≠ .reject →
        (handler env ⟨lead, addr, sqm, cp⟩).1 = .okResp ⟨lead, none, none, .na, 0⟩) ∧
      (fetchPriceM2WithOpenAI env.apiKey env.providerRaw = .error () →
        (handler env ⟨lead, addr, sqm, cp⟩).1 = .serverError)) := by
  refine ⟨?_, ?_, ⟨rfl, fun rs => rfl⟩, ?_⟩
  · intro k c
    cases k <;> simp [fetchPriceM2WithOpenAI]
  · intro rs h
    induction rs with
    | nil => exact ⟨none, rfl⟩
    | cons r rest ih =>
      cases r with
      | callThrow => exact absurd rfl (h _ (List.mem_cons_self _ _))
      | parseFail => exact ih (fun r hr => h r (List.mem_cons_of_mem _ hr))
      | parsed f =>
        rcases hacc : acceptStrict f with _ | z
        · simpa [fetchStrictLoop, hacc] using
            ih (fun r hr => h r (List.mem_cons_of_mem _ hr))
        · exact ⟨some z, by simp [fetchStrictLoop, hacc]⟩
  · intro env lead addr sqm cp hl ha hcp hmiss
    constructor
    · intro hok hw
      have hh : handler env ⟨lead, addr, sqm, cp⟩ =
          finishOk env ⟨lead, addr, sqm, cp⟩ none .na
            ([Effect.readCache cp] ++ [Effect.callProvider addr]) := by
        simp only [handler]
        rw [if_neg (by simp [hl, ha]), if_pos hcp, if_neg hcp]
        rw [if_neg (by simp [hmiss]), hok]
        simp
      rw [hh, finishOk_fst_ok _ _ _ _ _ hw]
      simp [vpOf, confOf]
    · intro herr
      simp only [handler]
      rw [if_neg (by simp [hl, ha]), if_pos hcp, if_neg hcp]
      rw [if_neg (by simp [hmiss]), herr]

/-- C1 counterexample: the claim as stated fails — when the underlying
call raises, the free-text provider function propagates the exception
instead of returning `null`, and the engine answers 500 `internal_error`
rather than completing with `source = unavailable`. -/
theorem c1_counterexample :
    fetchPriceM2WithOpenAI true (.error ()) = .error () ∧
    (handler envThrow reqStd).1 = .serverError :=
  ⟨rfl, by decide⟩

/-- C1 witness: a parsed-but-empty response ("NA") is absorbed and the
engine answers `source = na` with confidence 0; a raising call makes the
engine answer 500. -/
theorem c1_witness :
    (∃ v, fetchPriceM2WithOpenAI true (.ok (some "NA")) = .ok v) ∧
    (∃ v, fetchStrictLoop [.parseFail, .parseFail] = .ok v) ∧
    (handler envMissNA reqStd).1 = .okResp ⟨"L1", none, none, .na, 0⟩ ∧
    (handler envThrow reqStd).1 = .serverError := by
  refine ⟨c1_provider_error_handling.1 true (some "NA"),
          c1_provider_error_handling.2.1 [.parseFail, .parseFail] (by decide),
          ?_, ?_⟩
  · exact (c1_provider_error_handling.2.2.2 envMissNA "L1" "Calle Mayor 5, 28013 Madrid"
      none "28013" (by decide) (by decide) (by decide) (by decide)).1 rfl (by decide)
  · exact (c1_provider_error_handling.2.2.2 envThrow "L1" "Calle Mayor 5, 28013 Madrid"
      none "28013" (by decide) (by decide) (by decide) (by decide)).2 rfl

/-- C2 (code bug): the free-text normalization claim fails on
`"3.150,00"`.  The token regex `(\d{3,6}(?:[.,]\d{1,3})?)` cannot span
the thousands dot, so it captures `"150,00"` and the code answers `150`,
not the specified `3150`; the other two cases of the claim hold. -/
theorem c2_parse_eval :
    parsePriceText "3.150,00" = some 150 ∧
    parsePriceText "6526 €/m²" = some 6526 ∧
    parsePriceText "NA" = none := by
  refine ⟨?_, ?_, rfl⟩
  · have h : parsePriceText "3.150,00" =
        some (round (ratOfNumToken ['1', '5', '0', '.', '0', '0'])) := rfl
    rw [h, show ratOfNumToken ['1', '5', '0', '.', '0', '0'] = 150 from by
      show ((150 : ℕ) : ℚ) + ((0 : ℕ) : ℚ) / ((10 : ℚ) ^ (2 : ℕ)) = 150
      norm_num]
    norm_num [round_eq]
  · have h : parsePriceText "6526 €/m²" =
        some (round (ratOfNumToken ['6', '5', '2', '6'])) := rfl
    rw [h, show ratOfNumToken ['6', '5', '2', '6'] = 6526 from by
      show ((6526 : ℕ) : ℚ) = 6526
      norm_num]
    norm_num [round_eq]

/-- C3 (corrected, amended form): the code treats the two persistence
writes identically.  A write failure reported in-band by the datastore
client (how supabase-js reports failed updates) is ignored for both the
cache upsert and the final lead-store write — the request is still
answered 200; a write whose promise rejects aborts the request with a
500 for both writes, including the cache upsert. -/
theorem c3_write_failure_handling :
    (∀ (env : Env) (lead addr : String) (sqm : Option ℚ) (cp : String)
       (row : CacheRow) (t : ℕ),
      lead ≠ "" → addr ≠ "" → cp ≠ "" →
      env.cacheErr = false → env.cacheDb cp = some row → row.fresh_until = some t →
      env.now < t → 0 < row.price_m2 →
      (env.leadWriteRes = .inbandErr →
        ∃ p, (handler env ⟨lead, addr, sqm, cp⟩).1 = .okResp p) ∧
      (env.leadWriteRes = .reject →
        (handler env ⟨lead, addr, sqm, cp⟩).1 = .serverError)) ∧
    (∀ (env : Env) (lead addr : String) (sqm : Option ℚ) (cp : String) (z : ℤ),
      lead ≠ "" → addr ≠ "" → cp ≠ "" →
      (getCachedPrice env cp).getD 0 = 0 →
      fetchPriceM2WithOpenAI env.apiKey env.providerRaw = .ok (some z) → (z : ℚ) ≠ 0 →
      (env.cacheWriteRes = .reject →
        (handler env ⟨lead, addr, sqm, cp⟩).1 = .serverError) ∧
      (env.cacheWriteRes = .inbandErr → env.leadWriteRes ≠ .reject →
        ∃ p, (handler env ⟨lead, addr, sqm, cp⟩).1 = .okResp p)) := by
  constructor
  · intro env lead addr sqm cp row t hl ha hcp he hdb hfu hlt hpos
    have hh := handler_hit_finish env lead addr sqm cp row t hl ha hcp he hdb hfu hlt hpos
    constructor
    · intro hw
      rw [hh, finishOk_fst_ok _ _ _ _ _ (by simp [hw])]
      exact ⟨_, rfl⟩
    · intro hw
      rw [hh]
      exact finishOk_fst_reject _ _ _ _ _ hw
  · intro env lead addr sqm cp z hl ha hcp hmiss hf hz
    have hh : handler env ⟨lead, addr, sqm, cp⟩ =
        (match env.cacheWriteRes with
         | .reject => (Resp.serverError,
             [Effect.readCache cp] ++ [Effect.callProvider addr] ++ [Effect.writeCache cp])
         | _ => finishOk env ⟨lead, addr, sqm, cp⟩ (some (z : ℚ)) .openai
             ([Effect.readCache cp] ++ [Effect.callProvider addr] ++ [Effect.writeCache cp])) := by
      simp only [handler]
      rw [if_neg (by simp [hl, ha]), if_pos hcp, if_neg hcp]
      rw [if_neg (by simp [hmiss]), hf]
      simp only [Option.map_some', Option.getD_some]
      rw [if_pos hz]
    constructor
    · intro hwc
      rw [hh, hwc]
    · intro hwc hwl
      rw [hh, hwc]
      exact ⟨_, finishOk_fst_ok _ _ _ _ _ hwl⟩

/-- C3 counterexample: the claim as stated fails — a failed final
lead-store write (reported in-band by the datastore client, the way
`updateLeadRow`'s unchecked `update` reports failures) does not produce
a server error: the request is answered 200 with the computed payload. -/
theorem c3_counterexample :
    envLeadInband.leadWriteRes = .inbandErr ∧
    handler envLeadInband reqStd =
      (.okResp ⟨"L1", some 3000, none, .cached, 85⟩,
       [.readCache "28013", .writeLead "L1"]) :=
  ⟨rfl, by decide⟩

/-- C3 witness: the four write-failure scenarios — in-band lead failure
answered 200, rejected lead write answered 500, rejected cache upsert
answered 500, in-band cache failure answered 200. -/
theorem c3_witness :
    (∃ p, (handler envLeadInband reqStd).1 = .okResp p) ∧
    (handler envLeadReject reqStd).1 = .serverError ∧
    (handler envCacheReject reqStd).1 = .serverError ∧
    (∃ p, (handler envCacheInband reqStd).1 = .okResp p) := by
  refine ⟨?_, ?_, ?_, ?_⟩
  · exact (c3_write_failure_handling.1 envLeadInband "L1" "Calle Mayor 5, 28013 Madrid"
      none "28013" rowFresh 1000 (by decide) (by decide) (by decide) rfl rfl rfl
      (by decide) (by norm_num [rowFresh])).1 rfl
  · exact (c3_write_failure_handling.1 envLeadReject "L1" "Calle Mayor 5, 28013 Madrid"
      none "28013" rowFresh 1000 (by decide) (by decide) (by decide) rfl rfl rfl
      (by decide) (by norm_num [rowFresh])).2 rfl
  · exact (c3_write_failure_handling.2 envCacheReject "L1" "Calle Mayor 5, 28013 Madrid"
      none "28013" 6526 (by decide) (by decide) (by decide) (by decide) fetch_6526
      (by norm_num)).1 rfl
  · exact (c3_write_failure_handling.2 envCacheInband "L1" "Calle Mayor 5, 28013 Madrid"
      none "28013" 6526 (by decide) (by decide) (by decide) (by decide) fetch_6526
      (by norm_num)).2 rfl (by decide)

/-- C8 (corrected, amended form): the strict strategy accepts a
response iff the `price_m2_eur_int` field is present and holds a
nonzero integer — the code's truthiness test also rejects the integer
`0`; accepted responses return the field's value, and when both prompt
attempts fail to produce such a field the strategy answers
`Unavailable`. -/
theorem c8_strict_accept :
    (∀ f : JsField, (∃ z, acceptStrict f = some z) ↔
      (∃ q : ℚ, f = .num q ∧ q.den = 1 ∧ q ≠ 0)) ∧
    (∀ q : ℚ, q.den = 1 → q ≠ 0 → acceptStrict (.num q) = some q.num) ∧
    (∀ r₁ r₂ : PromptRes, r₁ ≠ .callThrow → r₂ ≠ .callThrow →
      (∀ f, r₁ = .parsed f → acceptStrict f = none) →
      (∀ f, r₂ = .parsed f → acceptStrict f = none) →
      fetchPriceM2Strict true [r₁, r₂] = .ok none) := by
  refine ⟨?_, ?_, ?_⟩
  · intro f
    cases f with
    | absent => simp [acceptStrict]
    | nonNum t => simp [acceptStrict]
    | num q =>
      constructor
      · rintro ⟨z, hz⟩
        simp only [acceptStrict] at hz
        split_ifs at hz with h
        exact ⟨q, rfl, h.2, h.1⟩
      · rintro ⟨q', hq', hden, hne⟩
        cases hq'
        exact ⟨q.num, by simp [acceptStrict, hne, hden]⟩
  · intro q hden hne
    simp [acceptStrict, hne, hden]
  · intro r1 r2 h1 h2 ha1 ha2
    cases r1 with
    | callThrow => exact absurd rfl h1
    | parseFail =>
      cases r2 with
      | callThrow => exact absurd rfl h2
      | parseFail => rfl
      | parsed f => simp [fetchPriceM2Strict, fetchStrictLoop, ha2 f rfl]
    | parsed f =>
      cases r2 with
      | callThrow => exact absurd rfl h2
      | parseFail => simp [fetchPriceM2Strict, fetchStrictLoop, ha1 f rfl]
      | parsed g => simp [fetchPriceM2Strict, fetchStrictLoop, ha1 f rfl, ha2 g rfl]

/-- C8 counterexample: the claim as stated fails — a response whose
field is present and holds the integer `0` is rejected by the
truthiness test, and with both attempts yielding it the strategy
answers `Unavailable`. -/
theorem c8_counterexample :
    acceptStrict (.num 0) = none ∧ (0 : ℚ).den = 1 ∧
    fetchPriceM2Strict true [.parsed (.num 0), .parsed (.num 0)] = .ok none :=
  ⟨rfl, rfl, rfl⟩

/-- C8 witness: a present nonzero integer field is accepted with its
value, and two failing attempts (a parse failure, then a non-numeric
field) yield `Unavailable`. -/
theorem c8_witness :
    (∃ z, acceptStrict (.num 3100) = some z) ∧
    acceptStrict (.num 2024) = some 2024 ∧
    fetchPriceM2Strict true [.parseFail, .parsed (.nonNum true)] = .ok none := by
  refine ⟨?_, ?_, ?_⟩
  · exact (c8_strict_accept.1 (.num 3100)).mpr ⟨3100, rfl, by decide, by decide⟩
  · have h := c8_strict_accept.2.1 (2024 : ℚ) (by decide) (by decide)
    simpa using h
  · exact c8_strict_accept.2.2 .parseFail (.parsed (.nonNum true))
      (by simp) (by simp) (fun f h => by cases h) (fun f h => by cases h; rfl)

/-- C9 (corrected, amended form): when no explicit postal code is
supplied, the extractor returns the run starting at the first position
`i` carrying exactly five consecutive digits bounded on both sides by a
string boundary or a NON-WORD character (`\b` treats letters, digits and
underscore as word characters), and yields `NotFound` exactly when no
such position exists; in particular a five-digit run adjacent to a
letter or underscore is NOT extracted. -/
theorem c9_first_word_bounded_run (s : String) :
    (∀ r : String, cpMatchStr s = some r ↔
      ∃ i, wordBoundedRunAt s.toList i = true ∧
        (∀ j, j < i → wordBoundedRunAt s.toList j = false) ∧
        r = String.mk ((s.toList.drop i).take 5)) ∧
    (cpMatchStr s = none ↔ ∀ i, wordBoundedRunAt s.toList i = false) := by
  constructor
  · intro r
    unfold cpMatchStr
    rcases hs : cpScan none s.toList with _ | rl
    · simp only [Option.map_none']
      constructor
      · intro h
        exact absurd h (by simp)
      · rintro ⟨i, h1, h2, h3⟩
        have hn := (cpScan_none_iff none s.toList).mp hs i
        have hsome := (matchFiveAt_eq_some s.toList i ((s.toList.drop i).take 5)).mpr ⟨h1, rfl⟩
        rw [hn] at hsome
        exact absurd hsome (by simp)
    · simp only [Option.map_some', Option.some.injEq]
      obtain ⟨i₀, hm0, hmin0⟩ := (cpScan_some_iff none s.toList rl).mp hs
      obtain ⟨hw0, hr0⟩ := (matchFiveAt_eq_some _ _ _).mp hm0
      constructor
      · intro h
        refine ⟨i₀, hw0, ?_, ?_⟩
        · intro j hj
          have hn := hmin0 j hj
          by_contra hc
          rw [Bool.not_eq_false] at hc
          have hsome := (matchFiveAt_eq_some s.toList j ((s.toList.drop j).take 5)).mpr ⟨hc, rfl⟩
          rw [hn] at hsome
          exact absurd hsome (by simp)
        · rw [← h, hr0]
      · rintro ⟨i, h1, h2, h3⟩
        have hii : i₀ = i := by
          rcases lt_trichotomy i₀ i with hlt | heq | hgt
          · have := h2 i₀ hlt
            rw [this] at hw0
            exact absurd hw0 (by simp)
          · exact heq
          · have hn := hmin0 i hgt
            have hsome := (matchFiveAt_eq_some s.toList i ((s.toList.drop i).take 5)).mpr ⟨h1, rfl⟩
            rw [hn] at hsome
            exact absurd hsome (by simp)
        rw [h3, hr0, hii]
  · unfold cpMatchStr
    constructor
    · intro h i
      have hs : cpScan none s.toList = none := by
        rcases hs : cpScan none s.toList with _ | rl
        · rfl
        · rw [hs] at h
          exact absurd h (by simp)
      have hn := (cpScan_none_iff none s.toList).mp hs i
      by_contra hc
      rw [Bool.not_eq_false] at hc
      have hsome := (matchFiveAt_eq_some s.toList i ((s.toList.drop i).take 5)).mpr ⟨hc, rfl⟩
      rw [hn] at hsome
      exact absurd hsome (by simp)
    · intro h
      rcases hs : cpScan none s.toList with _ | rl
      · rfl
      · obtain ⟨i, h1, _⟩ := (cpScan_some_iff none s.toList rl).mp hs
        obtain ⟨hw, _⟩ := (matchFiveAt_eq_some _ _ _).mp h1
        rw [h i] at hw
        exact absurd hw (by simp)

/-- C9 counterexample: the claim as stated fails.  In `"ABC28013"` the
run `28013` is a maximal five-digit run bounded by a non-digit (`C`) and
the string end, so the claim says it is extracted; but `\b` requires a
non-word neighbour and `C` is a word character, so the regex does not
match, and a request with this address and no explicit postal code is
rejected with the validation error. -/
theorem c9_counterexample :
    digitBoundedRunAt "ABC28013".toList 3 = true ∧
    ("ABC28013".toList.drop 3).take 5 = "28013".toList ∧
    cpMatchStr "ABC28013" = none ∧
    handler envHit ⟨"L1", "ABC28013", none, ""⟩ =
      (.badRequest "no se pudo detectar el CP", []) :=
  ⟨by decide, by decide, by decide, by decide⟩

/-- C9 witness: in `"ABC 28013"` the run `28013` starts at index 4, is
word-bounded (space before, string end after), no earlier position
matches, and the extractor returns it. -/
theorem c9_witness : cpMatchStr "ABC 28013" = some "28013" :=
  ((c9_first_word_bounded_run "ABC 28013").1 "28013").mpr
    ⟨4, by decide, by decide, by decide⟩

end LeadValuation
